import Mathlib

/-!
Verification of the DECam Community-Pipeline ISR overrides
(`python/lsst/obs/decam/decamCpIsr.py`).

The repository customises an instrument-signature-removal task: it computes a
symmetric edge-trim width from the bounding boxes of a raw exposure and a
(possibly smaller) calibration exposure, applies the external bias/flat
correction routine only to the interior sub-region of the raw exposure, and
marks the untouched border pixels with the mask plane's EDGE bit.

Modelling choices:
* A masked image (`exposure.getMaskedImage()`) is a width, a height, an image
  plane (pixel values as integers) and a mask plane (bit masks as naturals).
* Python `assert` failures become `Except.error` with the assertion message.
* The external correction routines (`lsst.ip.isr.biasCorrection` /
  `flatCorrection`) are parameters: this repository only selects the region
  they act on and forwards the configured scaling arguments.
* In-place mutation through the view `exposure.maskedImage[nEdge:-nEdge,
  nEdge:-nEdge, LOCAL]` is modelled by extracting the sub-view, applying the
  external routine, and writing the result back into the parent exposure.
-/

/-- A masked image: an image plane plus a mask plane of per-pixel status bits.
Pixel coordinates range over `[0, width) × [0, height)`; the plane functions
are total but only in-range coordinates are meaningful. -/
structure MaskedImage where
  width : Nat
  height : Nat
  image : Nat → Nat → Int
  mask : Nat → Nat → Nat

/-- Embedding of `_computeEdgeSize`: the per-axis bounding-box extent
differences `nx, ny` between the raw exposure and the calibration exposure
must be equal, even and non-negative (checked in that order, mirroring the
three `assert` statements); the edge width is half the difference. -/
def computeEdgeSize (rawExposure calibExposure : MaskedImage) : Except String Int :=
  let nx : Int := (rawExposure.width : Int) - (calibExposure.width : Int)
  let ny : Int := (rawExposure.height : Int) - (calibExposure.height : Int)
  if nx ≠ ny then Except.error "Exposure is trimmed differently in X and Y"
  else if nx % 2 ≠ 0 then Except.error "Exposure is trimmed unevenly in X"
  else if nx < 0 then Except.error "Calibration image is larger than raw data"
  else Except.ok (nx / 2)

/-- The rectangular region `[x0, x0 + w) × [y0, y0 + h)` of pixel coordinates. -/
abbrev inRegion (x0 y0 w h x y : Nat) : Prop :=
  x0 ≤ x ∧ x < x0 + w ∧ y0 ≤ y ∧ y < y0 + h

/-- A sub-image view of a masked image: the slice of extent `w × h` whose
lower corner sits at `(x0, y0)` of the parent image. -/
def subView (mi : MaskedImage) (x0 y0 w h : Nat) : MaskedImage :=
  { width := w, height := h,
    image := fun x y => mi.image (x0 + x) (y0 + y),
    mask := fun x y => mi.mask (x0 + x) (y0 + y) }

/-- The interior of an exposure with a uniform margin of `k` pixels removed
from every side: the view `exposure.maskedImage[k:-k, k:-k, LOCAL]`. -/
def interiorView (mi : MaskedImage) (k : Nat) : MaskedImage :=
  subView mi k k (mi.width - 2 * k) (mi.height - 2 * k)

/-- Write the contents of a sub-image back into the parent at region
`[x0, x0 + w) × [y0, y0 + h)`.  This models the in-place mutation of the
parent exposure performed by the external routine through the sub-image
view: dimensions and pixels outside the region are untouched. -/
def writeSub (mi : MaskedImage) (x0 y0 w h : Nat) (sub : MaskedImage) : MaskedImage :=
  { mi with
    image := fun x y =>
      if inRegion x0 y0 w h x y then sub.image (x - x0) (y - y0) else mi.image x y,
    mask := fun x y =>
      if inRegion x0 y0 w h x y then sub.mask (x - x0) (y - y0) else mi.mask x y }

/-- Modelled from the spec: the external edge-bit-marking routine
(`SourceDetectionTask.setEdgeBits`, not part of this repository) — given a
full mask plane, the sub-region already corrected, and a bitmask, it ORs that
bitmask into the mask of every pixel outside the sub-region, leaving the
image plane and the pixels inside the sub-region untouched. -/
def setEdgeBits (mi : MaskedImage) (x0 y0 w h : Nat) (bitmask : Nat) : MaskedImage :=
  { mi with
    mask := fun x y =>
      if x < mi.width ∧ y < mi.height ∧ ¬ inRegion x0 y0 w h x y
      then mi.mask x y ||| bitmask else mi.mask x y }

/-- Modelled from the spec: the configuration schema inherited from the base
ISR task (the `.isr` module and the external framework, not in the sources).
Only the fields this repository reads are explicit — the flat-scaling mode
and the user-supplied flat scale (a pass-through numeric value, represented
as a rational) — plus an abstract remainder of the inherited schema. -/
structure DecamIsrConfig where
  flatScalingType : String
  flatUserScale : Rat
  otherIsrFields : List (String × String)

/-- Modelled from the spec: the DECam CP configuration adds exactly two
dataset-type-name string fields beyond the inherited schema. -/
structure DecamCpIsrConfig extends DecamIsrConfig where
  biasDataProductName : String
  flatDataProductName : String

/-- Embedding of `DecamCpIsrConfig.setDefaults`: assign the CP MasterCal
dataset type names. -/
def DecamCpIsrConfig.setDefaults (c : DecamCpIsrConfig) : DecamCpIsrConfig :=
  { c with biasDataProductName := "cpBias", flatDataProductName := "cpFlat" }

/-- Embedding of `DecamCpIsrTask.biasCorrection`.  `extBias` is the external
correction routine `lsst.ip.isr.biasCorrection`, acting in place on the
masked-image view handed to it; `edgeBit` is
`getMask().getPlaneBitMask("EDGE")`.  A failed geometry assertion propagates
before anything is mutated. -/
def biasCorrectionTask (extBias : MaskedImage → MaskedImage → MaskedImage)
    (edgeBit : Nat) (exposure biasExposure : MaskedImage) : Except String MaskedImage :=
  match computeEdgeSize exposure biasExposure with
  | Except.error m => Except.error m
  | Except.ok nEdge =>
    if 0 < nEdge then
      Except.ok (setEdgeBits
        (writeSub exposure nEdge.toNat nEdge.toNat
          (exposure.width - 2 * nEdge.toNat) (exposure.height - 2 * nEdge.toNat)
          (extBias (interiorView exposure nEdge.toNat) biasExposure))
        nEdge.toNat nEdge.toNat
        (exposure.width - 2 * nEdge.toNat) (exposure.height - 2 * nEdge.toNat) edgeBit)
    else
      Except.ok (setEdgeBits
        (writeSub exposure 0 0 exposure.width exposure.height
          (extBias exposure biasExposure))
        0 0 exposure.width exposure.height edgeBit)

/-- Embedding of `DecamCpIsrTask.flatCorrection`.  `extFlat` is the external
routine `lsst.ip.isr.flatCorrection`, which additionally receives the
configured scaling mode and user scale. -/
def flatCorrectionTask (extFlat : MaskedImage → MaskedImage → String → Rat → MaskedImage)
    (edgeBit : Nat) (cfg : DecamCpIsrConfig)
    (exposure flatExposure : MaskedImage) : Except String MaskedImage :=
  match computeEdgeSize exposure flatExposure with
  | Except.error m => Except.error m
  | Except.ok nEdge =>
    if 0 < nEdge then
      Except.ok (setEdgeBits
        (writeSub exposure nEdge.toNat nEdge.toNat
          (exposure.width - 2 * nEdge.toNat) (exposure.height - 2 * nEdge.toNat)
          (extFlat (interiorView exposure nEdge.toNat) flatExposure
            cfg.flatScalingType cfg.flatUserScale))
        nEdge.toNat nEdge.toNat
        (exposure.width - 2 * nEdge.toNat) (exposure.height - 2 * nEdge.toNat) edgeBit)
    else
      Except.ok (setEdgeBits
        (writeSub exposure 0 0 exposure.width exposure.height
          (extFlat exposure flatExposure cfg.flatScalingType cfg.flatUserScale))
        0 0 exposure.width exposure.height edgeBit)

/-- The caller-visible state of one correction call: the raw exposure and the
calibration exposure the method receives. -/
structure IsrState where
  exposure : MaskedImage
  calib : MaskedImage

/-- A `biasCorrection` call at the state level: the raw exposure is replaced
by its corrected version, the calibration exposure is only read. -/
def biasCorrectionCall (extBias : MaskedImage → MaskedImage → MaskedImage)
    (edgeBit : Nat) (s : IsrState) : Except String IsrState :=
  match biasCorrectionTask extBias edgeBit s.exposure s.calib with
  | Except.error m => Except.error m
  | Except.ok e => Except.ok { exposure := e, calib := s.calib }

/-- A `flatCorrection` call at the state level. -/
def flatCorrectionCall (extFlat : MaskedImage → MaskedImage → String → Rat → MaskedImage)
    (edgeBit : Nat) (cfg : DecamCpIsrConfig) (s : IsrState) : Except String IsrState :=
  match flatCorrectionTask extFlat edgeBit cfg s.exposure s.calib with
  | Except.error m => Except.error m
  | Except.ok e => Except.ok { exposure := e, calib := s.calib }

/-! Helper lemmas about the geometry computation. -/

/-- If the extent differences are equal to `2k` on both axes with `k ≥ 0`,
the computation succeeds with result `k`. -/
theorem computeEdgeSize_ok_of (raw calib : MaskedImage) (k : Int)
    (h1 : (raw.width : Int) - calib.width = 2 * k)
    (h2 : (raw.height : Int) - calib.height = 2 * k)
    (h3 : 0 ≤ k) :
    computeEdgeSize raw calib = Except.ok k := by
  unfold computeEdgeSize
  rw [if_neg (by omega), if_neg (by omega), if_neg (by omega)]
  congr 1
  omega

/-- Inversion: a successful edge computation means both extent differences
equal `2k` and `k` is non-negative. -/
theorem computeEdgeSize_ok_inv (raw calib : MaskedImage) (k : Int)
    (h : computeEdgeSize raw calib = Except.ok k) :
    (raw.width : Int) - calib.width = 2 * k ∧
    (raw.height : Int) - calib.height = 2 * k ∧ 0 ≤ k := by
  simp only [computeEdgeSize] at h
  split at h
  · simp at h
  split at h
  · simp at h
  split at h
  · simp at h
  rename_i h1 h2 h3
  simp only [ne_eq, not_not] at h1 h2
  have hk := Except.ok.inj h
  omega

/-- Claim C1: for a raw exposure of dimensions `(W, H)` and a calibration
exposure of dimensions `(W − 2k, H − 2k)` with `k` a non-negative integer,
`_computeEdgeSize` returns exactly `k`. -/
theorem computeEdgeSize_symmetric_trim (W H k : Nat) (raw calib : MaskedImage)
    (hrw : raw.width = W) (hrh : raw.height = H)
    (hcw : calib.width = W - 2 * k) (hch : calib.height = H - 2 * k)
    (hkW : 2 * k ≤ W) (hkH : 2 * k ≤ H) :
    computeEdgeSize raw calib = Except.ok (k : Int) := by
  apply computeEdgeSize_ok_of <;> omega

/-- Claim C2: the computation fails exactly when the extent differences are
unequal in X vs Y, or equal but odd, or negative (calibration larger than
raw); in every failing case it produces an error, never a value. -/
theorem computeEdgeSize_error_iff (raw calib : MaskedImage) :
    (∃ msg, computeEdgeSize raw calib = Except.error msg) ↔
      ((raw.width : Int) - calib.width ≠ (raw.height : Int) - calib.height ∨
       ((raw.width : Int) - calib.width) % 2 ≠ 0 ∨
       (raw.width : Int) - calib.width < 0) := by
  simp only [computeEdgeSize]
  constructor
  · rintro ⟨msg, h⟩
    split at h
    · rename_i hc; exact Or.inl hc
    split at h
    · rename_i hc; exact Or.inr (Or.inl hc)
    split at h
    · rename_i hc; exact Or.inr (Or.inr hc)
    · simp at h
  · intro h
    split
    · exact ⟨_, rfl⟩
    split
    · exact ⟨_, rfl⟩
    split
    · exact ⟨_, rfl⟩
    rename_i h1 h2 h3
    simp only [ne_eq, not_not] at h1 h2
    rcases h with h | h | h
    · exact absurd h1 h
    · exact absurd h2 h
    · exact absurd h h3

/-- Claim C10: the edge-trim computation depends only on the bounding-box
dimensions of the two exposures, not on their pixel or mask contents: two
runs on dimension-equal pairs return the same result and fail together. -/
theorem computeEdgeSize_dims_only (raw1 cal1 raw2 cal2 : MaskedImage)
    (h1 : raw1.width = raw2.width) (h2 : raw1.height = raw2.height)
    (h3 : cal1.width = cal2.width) (h4 : cal1.height = cal2.height) :
    computeEdgeSize raw1 cal1 = computeEdgeSize raw2 cal2 ∧
    ((∃ m, computeEdgeSize raw1 cal1 = Except.error m) ↔
     (∃ m, computeEdgeSize raw2 cal2 = Except.error m)) := by
  have he : computeEdgeSize raw1 cal1 = computeEdgeSize raw2 cal2 := by
    unfold computeEdgeSize
    rw [h1, h2, h3, h4]
  exact ⟨he, by rw [he]⟩

/-! Pointwise behaviour of the region operations. -/

theorem setEdgeBits_image (mi : MaskedImage) (x0 y0 w h b : Nat) :
    (setEdgeBits mi x0 y0 w h b).image = mi.image := rfl

theorem setEdgeBits_width (mi : MaskedImage) (x0 y0 w h b : Nat) :
    (setEdgeBits mi x0 y0 w h b).width = mi.width := rfl

theorem setEdgeBits_height (mi : MaskedImage) (x0 y0 w h b : Nat) :
    (setEdgeBits mi x0 y0 w h b).height = mi.height := rfl

theorem writeSub_width (mi : MaskedImage) (x0 y0 w h : Nat) (sub : MaskedImage) :
    (writeSub mi x0 y0 w h sub).width = mi.width := rfl

theorem writeSub_height (mi : MaskedImage) (x0 y0 w h : Nat) (sub : MaskedImage) :
    (writeSub mi x0 y0 w h sub).height = mi.height := rfl

theorem setEdgeBits_mask_inRegion (mi : MaskedImage) (x0 y0 w h b x y : Nat)
    (hx : inRegion x0 y0 w h x y) :
    (setEdgeBits mi x0 y0 w h b).mask x y = mi.mask x y := by
  simp only [setEdgeBits]
  rw [if_neg]
  intro hc
  exact hc.2.2 hx

theorem setEdgeBits_mask_outside (mi : MaskedImage) (x0 y0 w h b x y : Nat)
    (hx : x < mi.width) (hy : y < mi.height) (hr : ¬ inRegion x0 y0 w h x y) :
    (setEdgeBits mi x0 y0 w h b).mask x y = mi.mask x y ||| b := by
  simp only [setEdgeBits]
  rw [if_pos ⟨hx, hy, hr⟩]

theorem writeSub_image_inRegion (mi : MaskedImage) (x0 y0 w h : Nat)
    (sub : MaskedImage) (x y : Nat) (hx : inRegion x0 y0 w h x y) :
    (writeSub mi x0 y0 w h sub).image x y = sub.image (x - x0) (y - y0) := by
  simp only [writeSub]
  rw [if_pos hx]

theorem writeSub_image_outside (mi : MaskedImage) (x0 y0 w h : Nat)
    (sub : MaskedImage) (x y : Nat) (hx : ¬ inRegion x0 y0 w h x y) :
    (writeSub mi x0 y0 w h sub).image x y = mi.image x y := by
  simp only [writeSub]
  rw [if_neg hx]

theorem writeSub_mask_inRegion (mi : MaskedImage) (x0 y0 w h : Nat)
    (sub : MaskedImage) (x y : Nat) (hx : inRegion x0 y0 w h x y) :
    (writeSub mi x0 y0 w h sub).mask x y = sub.mask (x - x0) (y - y0) := by
  simp only [writeSub]
  rw [if_pos hx]

theorem writeSub_mask_outside (mi : MaskedImage) (x0 y0 w h : Nat)
    (sub : MaskedImage) (x y : Nat) (hx : ¬ inRegion x0 y0 w h x y) :
    (writeSub mi x0 y0 w h sub).mask x y = mi.mask x y := by
  simp only [writeSub]
  rw [if_neg hx]

/-! Unfolding lemmas for the two correction tasks. -/

theorem biasCorrectionTask_eq_pos (extBias : MaskedImage → MaskedImage → MaskedImage)
    (edgeBit : Nat) (exposure calib : MaskedImage) (k : Int)
    (hk : computeEdgeSize exposure calib = Except.ok k) (hpos : 0 < k) :
    biasCorrectionTask extBias edgeBit exposure calib =
      Except.ok (setEdgeBits
        (writeSub exposure k.toNat k.toNat
          (exposure.width - 2 * k.toNat) (exposure.height - 2 * k.toNat)
          (extBias (interiorView exposure k.toNat) calib))
        k.toNat k.toNat
        (exposure.width - 2 * k.toNat) (exposure.height - 2 * k.toNat) edgeBit) := by
  unfold biasCorrectionTask
  rw [hk]
  simp only [if_pos hpos]

theorem biasCorrectionTask_eq_zero (extBias : MaskedImage → MaskedImage → MaskedImage)
    (edgeBit : Nat) (exposure calib : MaskedImage)
    (hk : computeEdgeSize exposure calib = Except.ok 0) :
    biasCorrectionTask extBias edgeBit exposure calib =
      Except.ok (setEdgeBits
        (writeSub exposure 0 0 exposure.width exposure.height
          (extBias exposure calib))
        0 0 exposure.width exposure.height edgeBit) := by
  unfold biasCorrectionTask
  rw [hk]
  simp only [if_neg (by omega : ¬ (0 : Int) < 0)]

theorem flatCorrectionTask_eq_pos
    (extFlat : MaskedImage → MaskedImage → String → Rat → MaskedImage)
    (edgeBit : Nat) (cfg : DecamCpIsrConfig) (exposure calib : MaskedImage) (k : Int)
    (hk : computeEdgeSize exposure calib = Except.ok k) (hpos : 0 < k) :
    flatCorrectionTask extFlat edgeBit cfg exposure calib =
      Except.ok (setEdgeBits
        (writeSub exposure k.toNat k.toNat
          (exposure.width - 2 * k.toNat) (exposure.height - 2 * k.toNat)
          (extFlat (interiorView exposure k.toNat) calib
            cfg.flatScalingType cfg.flatUserScale))
        k.toNat k.toNat
        (exposure.width - 2 * k.toNat) (exposure.height - 2 * k.toNat) edgeBit) := by
  unfold flatCorrectionTask
  rw [hk]
  simp only [if_pos hpos]

theorem flatCorrectionTask_eq_zero
    (extFlat : MaskedImage → MaskedImage → String → Rat → MaskedImage)
    (edgeBit : Nat) (cfg : DecamCpIsrConfig) (exposure calib : MaskedImage)
    (hk : computeEdgeSize exposure calib = Except.ok 0) :
    flatCorrectionTask extFlat edgeBit cfg exposure calib =
      Except.ok (setEdgeBits
        (writeSub exposure 0 0 exposure.width exposure.height
          (extFlat exposure calib cfg.flatScalingType cfg.flatUserScale))
        0 0 exposure.width exposure.height edgeBit) := by
  unfold flatCorrectionTask
  rw [hk]
  simp only [if_neg (by omega : ¬ (0 : Int) < 0)]

theorem biasCorrectionTask_ok_dims (extBias : MaskedImage → MaskedImage → MaskedImage)
    (edgeBit : Nat) (exposure calib : MaskedImage) (k : Int)
    (hk : computeEdgeSize exposure calib = Except.ok k) :
    ∃ e, biasCorrectionTask extBias edgeBit exposure calib = Except.ok e ∧
      e.width = exposure.width ∧ e.height = exposure.height := by
  rcases computeEdgeSize_ok_inv _ _ _ hk with ⟨-, -, hk0⟩
  have hcase : k = 0 ∨ 0 < k := by omega
  rcases hcase with h0 | hpos
  · subst h0
    exact ⟨_, biasCorrectionTask_eq_zero extBias edgeBit exposure calib hk, rfl, rfl⟩
  · exact ⟨_, biasCorrectionTask_eq_pos extBias edgeBit exposure calib k hk hpos, rfl, rfl⟩

theorem flatCorrectionTask_ok_dims
    (extFlat : MaskedImage → MaskedImage → String → Rat → MaskedImage)
    (edgeBit : Nat) (cfg : DecamCpIsrConfig) (exposure calib : MaskedImage) (k : Int)
    (hk : computeEdgeSize exposure calib = Except.ok k) :
    ∃ e, flatCorrectionTask extFlat edgeBit cfg exposure calib = Except.ok e ∧
      e.width = exposure.width ∧ e.height = exposure.height := by
  rcases computeEdgeSize_ok_inv _ _ _ hk with ⟨-, -, hk0⟩
  have hcase : k = 0 ∨ 0 < k := by omega
  rcases hcase with h0 | hpos
  · subst h0
    exact ⟨_, flatCorrectionTask_eq_zero extFlat edgeBit cfg exposure calib hk, rfl, rfl⟩
  · exact ⟨_, flatCorrectionTask_eq_pos extFlat edgeBit cfg exposure calib k hk hpos, rfl, rfl⟩

/-- Claim C5: when the calibration exposure has the same dimensions as the
raw exposure (trim k = 0), flat correction is applied to the entire raw
image and no additional EDGE bits are set in the mask plane: every in-range
pixel of the result carries exactly the image value and mask value produced
by the external flat-correction routine on the full image. -/
theorem flatCorrection_same_size
    (extFlat : MaskedImage → MaskedImage → String → Rat → MaskedImage)
    (edgeBit : Nat) (cfg : DecamCpIsrConfig) (exposure calib : MaskedImage)
    (hw : calib.width = exposure.width) (hh : calib.height = exposure.height) :
    ∃ r, flatCorrectionTask extFlat edgeBit cfg exposure calib = Except.ok r ∧
      ∀ x y, x < exposure.width → y < exposure.height →
        r.image x y = (extFlat exposure calib cfg.flatScalingType cfg.flatUserScale).image x y ∧
        r.mask x y = (extFlat exposure calib cfg.flatScalingType cfg.flatUserScale).mask x y := by
  have hk : computeEdgeSize exposure calib = Except.ok 0 :=
    computeEdgeSize_ok_of _ _ 0 (by omega) (by omega) (by omega)
  refine ⟨_, flatCorrectionTask_eq_zero extFlat edgeBit cfg exposure calib hk, ?_⟩
  intro x y hx hy
  have hreg : inRegion 0 0 exposure.width exposure.height x y :=
    ⟨Nat.zero_le _, by omega, Nat.zero_le _, by omega⟩
  constructor
  · rw [setEdgeBits_image, writeSub_image_inRegion _ _ _ _ _ _ _ _ hreg]
    simp
  · rw [setEdgeBits_mask_inRegion _ _ _ _ _ _ _ _ hreg,
      writeSub_mask_inRegion _ _ _ _ _ _ _ _ hreg]
    simp

/-- Claim C6: when the exposure geometry is malformed, the failure of the
edge computation propagates out of both corrections before the raw exposure
is touched: the call produces the assertion error and no post-state, so the
caller's exposures are exactly as they were before the call. -/
theorem correction_error_atomic
    (extBias : MaskedImage → MaskedImage → MaskedImage)
    (extFlat : MaskedImage → MaskedImage → String → Rat → MaskedImage)
    (edgeBit : Nat) (cfg : DecamCpIsrConfig) (s : IsrState) (msg : String)
    (h : computeEdgeSize s.exposure s.calib = Except.error msg) :
    biasCorrectionTask extBias edgeBit s.exposure s.calib = Except.error msg ∧
    flatCorrectionTask extFlat edgeBit cfg s.exposure s.calib = Except.error msg ∧
    biasCorrectionCall extBias edgeBit s = Except.error msg ∧
    flatCorrectionCall extFlat edgeBit cfg s = Except.error msg := by
  have hb : biasCorrectionTask extBias edgeBit s.exposure s.calib = Except.error msg := by
    unfold biasCorrectionTask
    rw [h]
  have hf : flatCorrectionTask extFlat edgeBit cfg s.exposure s.calib = Except.error msg := by
    unfold flatCorrectionTask
    rw [h]
  refine ⟨hb, hf, ?_, ?_⟩
  · unfold biasCorrectionCall
    rw [hb]
  · unfold flatCorrectionCall
    rw [hf]

/-- Claim C8: a correction call leaves the calibration exposure unchanged
(read-only), replaces only the raw exposure — whose dimensions are
preserved, so only its image and mask planes change — and yields no value
beyond the updated state. -/
theorem correction_mutates_only_raw
    (extBias : MaskedImage → MaskedImage → MaskedImage)
    (extFlat : MaskedImage → MaskedImage → String → Rat → MaskedImage)
    (edgeBit : Nat) (cfg : DecamCpIsrConfig) (s : IsrState) (k : Int)
    (hk : computeEdgeSize s.exposure s.calib = Except.ok k) :
    ∃ s1 s2,
      biasCorrectionCall extBias edgeBit s = Except.ok s1 ∧
      flatCorrectionCall extFlat edgeBit cfg s = Except.ok s2 ∧
      s1.calib = s.calib ∧ s2.calib = s.calib ∧
      s1.exposure.width = s.exposure.width ∧
      s1.exposure.height = s.exposure.height ∧
      s2.exposure.width = s.exposure.width ∧
      s2.exposure.height = s.exposure.height := by
  rcases biasCorrectionTask_ok_dims extBias edgeBit s.exposure s.calib k hk with
    ⟨e1, he1, hw1, hh1⟩
  rcases flatCorrectionTask_ok_dims extFlat edgeBit cfg s.exposure s.calib k hk with
    ⟨e2, he2, hw2, hh2⟩
  refine ⟨⟨e1, s.calib⟩, ⟨e2, s.calib⟩, ?_, ?_, rfl, rfl, hw1, hh1, hw2, hh2⟩
  · unfold biasCorrectionCall
    rw [he1]
  · unfold flatCorrectionCall
    rw [he2]

/-- Claim C9: the DECam CP configuration adds exactly two dataset-type-name
string fields beyond the inherited schema (that is how `DecamCpIsrConfig` is
declared), and `setDefaults` assigns them the fixed defaults `"cpBias"` and
`"cpFlat"` while leaving the entire inherited part of the configuration
unchanged. -/
theorem setDefaults_assigns (c : DecamCpIsrConfig) :
    (c.setDefaults).biasDataProductName = "cpBias" ∧
    (c.setDefaults).flatDataProductName = "cpFlat" ∧
    (c.setDefaults).toDecamIsrConfig = c.toDecamIsrConfig :=
  ⟨rfl, rfl, rfl⟩

/-! Shared characterisation of a positive-trim correction result. -/

theorem biasTask_pos_props (extBias : MaskedImage → MaskedImage → MaskedImage)
    (edgeBit : Nat) (exposure calib : MaskedImage) (k : Int)
    (hk : computeEdgeSize exposure calib = Except.ok k) (hpos : 0 < k) :
    ∃ r, biasCorrectionTask extBias edgeBit exposure calib = Except.ok r ∧
      (∀ i j, i < exposure.width - 2 * k.toNat → j < exposure.height - 2 * k.toNat →
        r.image (k.toNat + i) (k.toNat + j) =
          (extBias (interiorView exposure k.toNat) calib).image i j) ∧
      (∀ x y, x < exposure.width → y < exposure.height →
        ¬ inRegion k.toNat k.toNat (exposure.width - 2 * k.toNat)
            (exposure.height - 2 * k.toNat) x y →
        r.image x y = exposure.image x y ∧
        (∀ b, edgeBit.testBit b = true → (r.mask x y).testBit b = true)) ∧
      ((∀ x y b, ((interiorView exposure k.toNat).mask x y).testBit b = true →
          ((extBias (interiorView exposure k.toNat) calib).mask x y).testBit b = true) →
        ∀ x y, x < exposure.width → y < exposure.height →
        ∀ b, (exposure.mask x y).testBit b = true → (r.mask x y).testBit b = true) := by
  refine ⟨_, biasCorrectionTask_eq_pos extBias edgeBit exposure calib k hk hpos, ?_, ?_, ?_⟩
  · intro i j hi hj
    have hreg : inRegion k.toNat k.toNat (exposure.width - 2 * k.toNat)
        (exposure.height - 2 * k.toNat) (k.toNat + i) (k.toNat + j) :=
      ⟨by omega, by omega, by omega, by omega⟩
    rw [setEdgeBits_image, writeSub_image_inRegion _ _ _ _ _ _ _ _ hreg]
    have h1 : k.toNat + i - k.toNat = i := by omega
    have h2 : k.toNat + j - k.toNat = j := by omega
    rw [h1, h2]
  · intro x y hx hy hreg
    constructor
    · rw [setEdgeBits_image, writeSub_image_outside _ _ _ _ _ _ _ _ hreg]
    · intro b hb
      rw [setEdgeBits_mask_outside]
      · rw [Nat.testBit_or, hb]
        simp
      · exact hx
      · exact hy
      · exact hreg
  · intro hext x y hx hy b hb
    by_cases hreg : inRegion k.toNat k.toNat (exposure.width - 2 * k.toNat)
        (exposure.height - 2 * k.toNat) x y
    · rw [setEdgeBits_mask_inRegion _ _ _ _ _ _ _ _ hreg,
        writeSub_mask_inRegion _ _ _ _ _ _ _ _ hreg]
      apply hext
      show (exposure.mask (k.toNat + (x - k.toNat)) (k.toNat + (y - k.toNat))).testBit b = true
      rcases hreg with ⟨h1, h2, h3, h4⟩
      rw [Nat.add_sub_cancel' h1, Nat.add_sub_cancel' h3]
      exact hb
    · rw [setEdgeBits_mask_outside]
      · rw [Nat.testBit_or, writeSub_mask_outside _ _ _ _ _ _ _ _ hreg, hb]
        simp
      · exact hx
      · exact hy
      · exact hreg

theorem flatTask_pos_props
    (extFlat : MaskedImage → MaskedImage → String → Rat → MaskedImage)
    (edgeBit : Nat) (cfg : DecamCpIsrConfig) (exposure calib : MaskedImage) (k : Int)
    (hk : computeEdgeSize exposure calib = Except.ok k) (hpos : 0 < k) :
    ∃ r, flatCorrectionTask extFlat edgeBit cfg exposure calib = Except.ok r ∧
      (∀ i j, i < exposure.width - 2 * k.toNat → j < exposure.height - 2 * k.toNat →
        r.image (k.toNat + i) (k.toNat + j) =
          (extFlat (interiorView exposure k.toNat) calib
            cfg.flatScalingType cfg.flatUserScale).image i j) ∧
      (∀ x y, x < exposure.width → y < exposure.height →
        ¬ inRegion k.toNat k.toNat (exposure.width - 2 * k.toNat)
            (exposure.height - 2 * k.toNat) x y →
        r.image x y = exposure.image x y ∧
        (∀ b, edgeBit.testBit b = true → (r.mask x y).testBit b = true)) := by
  refine ⟨_, flatCorrectionTask_eq_pos extFlat edgeBit cfg exposure calib k hk hpos, ?_, ?_⟩
  · intro i j hi hj
    have hreg : inRegion k.toNat k.toNat (exposure.width - 2 * k.toNat)
        (exposure.height - 2 * k.toNat) (k.toNat + i) (k.toNat + j) :=
      ⟨by omega, by omega, by omega, by omega⟩
    rw [setEdgeBits_image, writeSub_image_inRegion _ _ _ _ _ _ _ _ hreg]
    have h1 : k.toNat + i - k.toNat = i := by omega
    have h2 : k.toNat + j - k.toNat = j := by omega
    rw [h1, h2]
  · intro x y hx hy hreg
    constructor
    · rw [setEdgeBits_image, writeSub_image_outside _ _ _ _ _ _ _ _ hreg]
    · intro b hb
      rw [setEdgeBits_mask_outside]
      · rw [Nat.testBit_or, hb]
        simp
      · exact hx
      · exact hy
      · exact hreg

/-- Claim C4: after bias correction with trim `k > 0` — given that the
external bias routine clears no mask bit of the view it corrects — every
pixel within `k` of any image edge has the EDGE bit set in the mask, no mask
bit already set on any pixel is cleared, and interior pixels hold exactly
the image values produced by the external bias-subtraction routine. -/
theorem biasCorrection_edge_mask
    (extBias : MaskedImage → MaskedImage → MaskedImage)
    (edgeBit : Nat) (exposure calib : MaskedImage) (k : Int)
    (hk : computeEdgeSize exposure calib = Except.ok k) (hpos : 0 < k)
    (hext : ∀ x y b, ((interiorView exposure k.toNat).mask x y).testBit b = true →
      ((extBias (interiorView exposure k.toNat) calib).mask x y).testBit b = true) :
    ∃ r, biasCorrectionTask extBias edgeBit exposure calib = Except.ok r ∧
      (∀ x y, x < exposure.width → y < exposure.height →
        (x < k.toNat ∨ exposure.width - k.toNat ≤ x ∨
         y < k.toNat ∨ exposure.height - k.toNat ≤ y) →
        ∀ b, edgeBit.testBit b = true → (r.mask x y).testBit b = true) ∧
      (∀ x y, x < exposure.width → y < exposure.height →
        ∀ b, (exposure.mask x y).testBit b = true → (r.mask x y).testBit b = true) ∧
      (∀ i j, i < exposure.width - 2 * k.toNat → j < exposure.height - 2 * k.toNat →
        r.image (k.toNat + i) (k.toNat + j) =
          (extBias (interiorView exposure k.toNat) calib).image i j) := by
  rcases computeEdgeSize_ok_inv _ _ _ hk with ⟨hW, hH, hk0⟩
  rcases biasTask_pos_props extBias edgeBit exposure calib k hk hpos with ⟨r, hr, hint, hout, hnc⟩
  refine ⟨r, hr, ?_, hnc hext, hint⟩
  intro x y hx hy hedge b hb
  have hreg : ¬ inRegion k.toNat k.toNat (exposure.width - 2 * k.toNat)
      (exposure.height - 2 * k.toNat) x y := by
    rintro ⟨h1, h2, h3, h4⟩
    omega
  exact (hout x y hx hy hreg).2 b hb

/-- Claim C3: for every valid exposure pair (symmetric, even, non-negative
trim `k`), both corrections hand the external routine exactly the interior
sub-region of the raw exposure obtained by removing a uniform margin of `k`
pixels on every side — a view `v` whose pixels are the raw pixels shifted by
`k` and whose dimensions equal the calibration exposure's — and pixels
outside that sub-region keep their original image values. -/
theorem correction_interior_subregion
    (extBias : MaskedImage → MaskedImage → MaskedImage)
    (extFlat : MaskedImage → MaskedImage → String → Rat → MaskedImage)
    (edgeBit : Nat) (cfg : DecamCpIsrConfig) (exposure calib : MaskedImage) (k : Int)
    (hk : computeEdgeSize exposure calib = Except.ok k) :
    ∃ v rb rf,
      biasCorrectionTask extBias edgeBit exposure calib = Except.ok rb ∧
      flatCorrectionTask extFlat edgeBit cfg exposure calib = Except.ok rf ∧
      v.width = calib.width ∧ v.height = calib.height ∧
      (∀ i j, v.image i j = exposure.image (k.toNat + i) (k.toNat + j)) ∧
      (∀ i j, v.mask i j = exposure.mask (k.toNat + i) (k.toNat + j)) ∧
      (∀ i j, i < v.width → j < v.height →
        rb.image (k.toNat + i) (k.toNat + j) = (extBias v calib).image i j ∧
        rf.image (k.toNat + i) (k.toNat + j) =
          (extFlat v calib cfg.flatScalingType cfg.flatUserScale).image i j) ∧
      (∀ x y, x < exposure.width → y < exposure.height →
        ¬ inRegion k.toNat k.toNat v.width v.height x y →
        rb.image x y = exposure.image x y ∧ rf.image x y = exposure.image x y) := by
  rcases computeEdgeSize_ok_inv _ _ _ hk with ⟨hW, hH, hk0⟩
  have hcase : k = 0 ∨ 0 < k := by omega
  rcases hcase with h0 | hpos
  · subst h0
    refine ⟨exposure, _, _,
      biasCorrectionTask_eq_zero extBias edgeBit exposure calib hk,
      flatCorrectionTask_eq_zero extFlat edgeBit cfg exposure calib hk,
      by omega, by omega, ?_, ?_, ?_, ?_⟩
    · intro i j
      simp
    · intro i j
      simp
    · intro i j hi hj
      have hz : (0 : Int).toNat = 0 := rfl
      rw [hz, Nat.zero_add, Nat.zero_add]
      have hreg : inRegion 0 0 exposure.width exposure.height i j :=
        ⟨Nat.zero_le _, by omega, Nat.zero_le _, by omega⟩
      constructor
      · rw [setEdgeBits_image, writeSub_image_inRegion _ _ _ _ _ _ _ _ hreg]
        simp
      · rw [setEdgeBits_image, writeSub_image_inRegion _ _ _ _ _ _ _ _ hreg]
        simp
    · intro x y hx hy hreg
      exact absurd ⟨Nat.zero_le _, by omega, Nat.zero_le _, by omega⟩ hreg
  · rcases biasTask_pos_props extBias edgeBit exposure calib k hk hpos with
      ⟨rb, hrb, hbint, hbout, -⟩
    rcases flatTask_pos_props extFlat edgeBit cfg exposure calib k hk hpos with
      ⟨rf, hrf, hfint, hfout⟩
    refine ⟨interiorView exposure k.toNat, rb, rf, hrb, hrf, ?_, ?_, ?_, ?_, ?_, ?_⟩
    · show exposure.width - 2 * k.toNat = calib.width
      omega
    · show exposure.height - 2 * k.toNat = calib.height
      omega
    · intro i j
      rfl
    · intro i j
      rfl
    · intro i j hi hj
      have hi' : i < exposure.width - 2 * k.toNat := hi
      have hj' : j < exposure.height - 2 * k.toNat := hj
      exact ⟨hbint i j hi' hj', hfint i j hi' hj'⟩
    · intro x y hx hy hreg
      have hreg' : ¬ inRegion k.toNat k.toNat (exposure.width - 2 * k.toNat)
          (exposure.height - 2 * k.toNat) x y := hreg
      exact ⟨(hbout x y hx hy hreg').1, (hfout x y hx hy hreg').1⟩

/-- Claim C7: for a raw exposure of 2048×4096 — with a 2046×4094 bias product
the computed edge width is 1, the corrected region is the interior slice of
extent 2046×4094 at offset 1 (rows/cols `[1:-1]`) holding the external bias
routine's values, and the width-1 border ring carries the EDGE flag; with a
2040×4088 flat product the edge width is 4, flat correction is applied to
the interior `[4:-4, 4:-4]` using the configured `flatScalingType` and
`flatUserScale`, and the 4-pixel border is flagged EDGE. -/
theorem scenario_2048x4096
    (extBias : MaskedImage → MaskedImage → MaskedImage)
    (extFlat : MaskedImage → MaskedImage → String → Rat → MaskedImage)
    (edgeBit : Nat) (cfg : DecamCpIsrConfig) (raw biasC flatC : MaskedImage)
    (hrw : raw.width = 2048) (hrh : raw.height = 4096)
    (hbw : biasC.width = 2046) (hbh : biasC.height = 4094)
    (hfw : flatC.width = 2040) (hfh : flatC.height = 4088) :
    computeEdgeSize raw biasC = Except.ok 1 ∧
    computeEdgeSize raw flatC = Except.ok 4 ∧
    (∃ rb, biasCorrectionTask extBias edgeBit raw biasC = Except.ok rb ∧
      (∀ i j, i < 2046 → j < 4094 →
        rb.image (1 + i) (1 + j) = (extBias (interiorView raw 1) biasC).image i j) ∧
      (∀ x y, x < 2048 → y < 4096 →
        (x < 1 ∨ 2047 ≤ x ∨ y < 1 ∨ 4095 ≤ y) →
        ∀ b, edgeBit.testBit b = true → (rb.mask x y).testBit b = true)) ∧
    (∃ rf, flatCorrectionTask extFlat edgeBit cfg raw flatC = Except.ok rf ∧
      (∀ i j, i < 2040 → j < 4088 →
        rf.image (4 + i) (4 + j) =
          (extFlat (interiorView raw 4) flatC
            cfg.flatScalingType cfg.flatUserScale).image i j) ∧
      (∀ x y, x < 2048 → y < 4096 →
        (x < 4 ∨ 2044 ≤ x ∨ y < 4 ∨ 4092 ≤ y) →
        ∀ b, edgeBit.testBit b = true → (rf.mask x y).testBit b = true)) := by
  have hkb : computeEdgeSize raw biasC = Except.ok 1 :=
    computeEdgeSize_ok_of _ _ 1 (by omega) (by omega) (by omega)
  have hkf : computeEdgeSize raw flatC = Except.ok 4 :=
    computeEdgeSize_ok_of _ _ 4 (by omega) (by omega) (by omega)
  refine ⟨hkb, hkf, ?_, ?_⟩
  · rcases biasTask_pos_props extBias edgeBit raw biasC 1 hkb (by omega) with
      ⟨rb, hrb, hint, hout, -⟩
    refine ⟨rb, hrb, ?_, ?_⟩
    · intro i j hi hj
      have := hint i j (by omega) (by omega)
      simpa using this
    · intro x y hx hy hedge b hb
      have hreg : ¬ inRegion (1 : Int).toNat (1 : Int).toNat
          (raw.width - 2 * (1 : Int).toNat) (raw.height - 2 * (1 : Int).toNat) x y := by
        rintro ⟨h1, h2, h3, h4⟩
        omega
      exact (hout x y (by omega) (by omega) hreg).2 b hb
  · rcases flatTask_pos_props extFlat edgeBit cfg raw flatC 4 hkf (by omega) with
      ⟨rf, hrf, hint, hout⟩
    refine ⟨rf, hrf, ?_, ?_⟩
    · intro i j hi hj
      have := hint i j (by omega) (by omega)
      simpa using this
    · intro x y hx hy hedge b hb
      have hreg : ¬ inRegion (4 : Int).toNat (4 : Int).toNat
          (raw.width - 2 * (4 : Int).toNat) (raw.height - 2 * (4 : Int).toNat) x y := by
        rintro ⟨h1, h2, h3, h4⟩
        omega
      exact (hout x y (by omega) (by omega) hreg).2 b hb

/-! Concrete fixtures for evaluating the theorems. -/

def wRaw : MaskedImage :=
  { width := 4, height := 4,
    image := fun x y => (x : Int) + 4 * (y : Int),
    mask := fun x y => if x = 0 ∧ y = 0 then 2 else 0 }

def wCalib : MaskedImage :=
  { width := 2, height := 2, image := fun _ _ => 3, mask := fun _ _ => 1 }

def wCalibSame : MaskedImage :=
  { width := 4, height := 4, image := fun _ _ => 5, mask := fun _ _ => 0 }

def wCalibBad : MaskedImage :=
  { width := 3, height := 4, image := fun _ _ => 0, mask := fun _ _ => 0 }

def wRawB : MaskedImage :=
  { width := 4, height := 4, image := fun _ _ => 7, mask := fun _ _ => 5 }

def wCalibB : MaskedImage :=
  { width := 2, height := 2, image := fun _ _ => 9, mask := fun _ _ => 6 }

def wExtBias : MaskedImage → MaskedImage → MaskedImage := fun v c =>
  { width := v.width, height := v.height,
    image := fun x y => v.image x y - c.image x y,
    mask := fun x y => v.mask x y ||| c.mask x y }

def wExtFlat : MaskedImage → MaskedImage → String → Rat → MaskedImage := fun v c _ _ =>
  { width := v.width, height := v.height,
    image := fun x y => v.image x y + c.image x y,
    mask := fun x y => v.mask x y ||| c.mask x y }

def wCfg : DecamCpIsrConfig :=
  { flatScalingType := "USER", flatUserScale := 1, otherIsrFields := [],
    biasDataProductName := "bias", flatDataProductName := "flat" }

def wState : IsrState := { exposure := wRaw, calib := wCalib }

def wStateBad : IsrState := { exposure := wRaw, calib := wCalibBad }

def wRaw2048 : MaskedImage :=
  { width := 2048, height := 4096, image := fun _ _ => 0, mask := fun _ _ => 0 }

def wBias2046 : MaskedImage :=
  { width := 2046, height := 4094, image := fun _ _ => 0, mask := fun _ _ => 0 }

def wFlat2040 : MaskedImage :=
  { width := 2040, height := 4088, image := fun _ _ => 0, mask := fun _ _ => 0 }

/-- Witness for C1 at a 4×4 raw exposure, 2×2 calibration, `k = 1`. -/
theorem computeEdgeSize_symmetric_trim_witness :
    (2 * 1 ≤ 4 ∧ 2 * 1 ≤ 4) ∧
    computeEdgeSize wRaw wCalib = Except.ok ((1 : Nat) : Int) :=
  ⟨by decide,
    computeEdgeSize_symmetric_trim 4 4 1 wRaw wCalib rfl rfl rfl rfl (by decide) (by decide)⟩

/-- Witness for C10 at two content-distinct pairs of equal dimensions. -/
theorem computeEdgeSize_dims_only_witness :
    (wRaw.width = wRawB.width ∧ wRaw.height = wRawB.height ∧
     wCalib.width = wCalibB.width ∧ wCalib.height = wCalibB.height) ∧
    (computeEdgeSize wRaw wCalib = computeEdgeSize wRawB wCalibB ∧
     ((∃ m, computeEdgeSize wRaw wCalib = Except.error m) ↔
      (∃ m, computeEdgeSize wRawB wCalibB = Except.error m))) :=
  ⟨⟨rfl, rfl, rfl, rfl⟩,
    computeEdgeSize_dims_only wRaw wCalib wRawB wCalibB rfl rfl rfl rfl⟩

/-- Witness for C5 at a same-size 4×4 flat product. -/
theorem flatCorrection_same_size_witness :
    (wCalibSame.width = wRaw.width ∧ wCalibSame.height = wRaw.height) ∧
    ∃ r, flatCorrectionTask wExtFlat 4 wCfg wRaw wCalibSame = Except.ok r ∧
      ∀ x y, x < wRaw.width → y < wRaw.height →
        r.image x y =
          (wExtFlat wRaw wCalibSame wCfg.flatScalingType wCfg.flatUserScale).image x y ∧
        r.mask x y =
          (wExtFlat wRaw wCalibSame wCfg.flatScalingType wCfg.flatUserScale).mask x y :=
  ⟨⟨rfl, rfl⟩, flatCorrection_same_size wExtFlat 4 wCfg wRaw wCalibSame rfl rfl⟩

/-- Witness for C6 at a calibration exposure trimmed asymmetrically. -/
theorem correction_error_atomic_witness :
    computeEdgeSize wStateBad.exposure wStateBad.calib =
      Except.error "Exposure is trimmed differently in X and Y" ∧
    (biasCorrectionTask wExtBias 4 wStateBad.exposure wStateBad.calib =
        Except.error "Exposure is trimmed differently in X and Y" ∧
     flatCorrectionTask wExtFlat 4 wCfg wStateBad.exposure wStateBad.calib =
        Except.error "Exposure is trimmed differently in X and Y" ∧
     biasCorrectionCall wExtBias 4 wStateBad =
        Except.error "Exposure is trimmed differently in X and Y" ∧
     flatCorrectionCall wExtFlat 4 wCfg wStateBad =
        Except.error "Exposure is trimmed differently in X and Y") :=
  ⟨rfl,
    correction_error_atomic wExtBias wExtFlat 4 wCfg wStateBad
      "Exposure is trimmed differently in X and Y" rfl⟩

/-- Witness for C8 at the 4×4 raw / 2×2 calibration state. -/
theorem correction_mutates_only_raw_witness :
    computeEdgeSize wState.exposure wState.calib = Except.ok 1 ∧
    ∃ s1 s2,
      biasCorrectionCall wExtBias 4 wState = Except.ok s1 ∧
      flatCorrectionCall wExtFlat 4 wCfg wState = Except.ok s2 ∧
      s1.calib = wState.calib ∧ s2.calib = wState.calib ∧
      s1.exposure.width = wState.exposure.width ∧
      s1.exposure.height = wState.exposure.height ∧
      s2.exposure.width = wState.exposure.width ∧
      s2.exposure.height = wState.exposure.height :=
  ⟨rfl, correction_mutates_only_raw wExtBias wExtFlat 4 wCfg wState 1 rfl⟩

/-- Witness for C3 at the 4×4 raw / 2×2 calibration pair, trim 1. -/
theorem correction_interior_subregion_witness :
    computeEdgeSize wRaw wCalib = Except.ok 1 ∧
    ∃ v rb rf,
      biasCorrectionTask wExtBias 4 wRaw wCalib = Except.ok rb ∧
      flatCorrectionTask wExtFlat 4 wCfg wRaw wCalib = Except.ok rf ∧
      v.width = wCalib.width ∧ v.height = wCalib.height ∧
      (∀ i j, v.image i j = wRaw.image ((1 : Int).toNat + i) ((1 : Int).toNat + j)) ∧
      (∀ i j, v.mask i j = wRaw.mask ((1 : Int).toNat + i) ((1 : Int).toNat + j)) ∧
      (∀ i j, i < v.width → j < v.height →
        rb.image ((1 : Int).toNat + i) ((1 : Int).toNat + j) = (wExtBias v wCalib).image i j ∧
        rf.image ((1 : Int).toNat + i) ((1 : Int).toNat + j) =
          (wExtFlat v wCalib wCfg.flatScalingType wCfg.flatUserScale).image i j) ∧
      (∀ x y, x < wRaw.width → y < wRaw.height →
        ¬ inRegion (1 : Int).toNat (1 : Int).toNat v.width v.height x y →
        rb.image x y = wRaw.image x y ∧ rf.image x y = wRaw.image x y) :=
  ⟨rfl, correction_interior_subregion wExtBias wExtFlat 4 wCfg wRaw wCalib 1 rfl⟩

/-- Witness for C4 at the 4×4 raw / 2×2 bias pair, trim 1, with the concrete
external bias routine (subtract images, OR masks), which clears no mask bit. -/
theorem biasCorrection_edge_mask_witness :
    (computeEdgeSize wRaw wCalib = Except.ok 1 ∧ (0 : Int) < 1) ∧
    ∃ r, biasCorrectionTask wExtBias 4 wRaw wCalib = Except.ok r ∧
      (∀ x y, x < wRaw.width → y < wRaw.height →
        (x < (1 : Int).toNat ∨ wRaw.width - (1 : Int).toNat ≤ x ∨
         y < (1 : Int).toNat ∨ wRaw.height - (1 : Int).toNat ≤ y) →
        ∀ b, (4 : Nat).testBit b = true → (r.mask x y).testBit b = true) ∧
      (∀ x y, x < wRaw.width → y < wRaw.height →
        ∀ b, (wRaw.mask x y).testBit b = true → (r.mask x y).testBit b = true) ∧
      (∀ i j, i < wRaw.width - 2 * (1 : Int).toNat → j < wRaw.height - 2 * (1 : Int).toNat →
        r.image ((1 : Int).toNat + i) ((1 : Int).toNat + j) =
          (wExtBias (interiorView wRaw (1 : Int).toNat) wCalib).image i j) :=
  ⟨⟨rfl, by decide⟩,
    biasCorrection_edge_mask wExtBias 4 wRaw wCalib 1 rfl (by decide)
      (fun x y b hb => by
        simp only [wExtBias, Nat.testBit_or, hb]
        simp)⟩

/-- Witness for C7 at concrete 2048×4096 / 2046×4094 / 2040×4088 exposures. -/
theorem scenario_2048x4096_witness :
    (wRaw2048.width = 2048 ∧ wRaw2048.height = 4096 ∧
     wBias2046.width = 2046 ∧ wBias2046.height = 4094 ∧
     wFlat2040.width = 2040 ∧ wFlat2040.height = 4088) ∧
    (computeEdgeSize wRaw2048 wBias2046 = Except.ok 1 ∧
     computeEdgeSize wRaw2048 wFlat2040 = Except.ok 4 ∧
     (∃ rb, biasCorrectionTask wExtBias 4 wRaw2048 wBias2046 = Except.ok rb ∧
       (∀ i j, i < 2046 → j < 4094 →
         rb.image (1 + i) (1 + j) = (wExtBias (interiorView wRaw2048 1) wBias2046).image i j) ∧
       (∀ x y, x < 2048 → y < 4096 →
         (x < 1 ∨ 2047 ≤ x ∨ y < 1 ∨ 4095 ≤ y) →
         ∀ b, (4 : Nat).testBit b = true → (rb.mask x y).testBit b = true)) ∧
     (∃ rf, flatCorrectionTask wExtFlat 4 wCfg wRaw2048 wFlat2040 = Except.ok rf ∧
       (∀ i j, i < 2040 → j < 4088 →
         rf.image (4 + i) (4 + j) =
           (wExtFlat (interiorView wRaw2048 4) wFlat2040
             wCfg.flatScalingType wCfg.flatUserScale).image i j) ∧
       (∀ x y, x < 2048 → y < 4096 →
         (x < 4 ∨ 2044 ≤ x ∨ y < 4 ∨ 4092 ≤ y) →
         ∀ b, (4 : Nat).testBit b = true → (rf.mask x y).testBit b = true))) :=
  ⟨⟨rfl, rfl, rfl, rfl, rfl, rfl⟩,
    scenario_2048x4096 wExtBias wExtFlat 4 wCfg wRaw2048 wBias2046 wFlat2040
      rfl rfl rfl rfl rfl rfl⟩
